import Mathlib

/-!
Verification of the routine-check habit tracker (src/app.py).

The program is a daily habit tracker: a derivation engine turns raw
time-of-day inputs and boolean flags into a fasting duration, compliance
flags and a 0-5 score, and a record store keeps one row per calendar date
in a CSV file, supporting keyed upsert, full-table load and a windowed
compliance aggregate.

This file shallowly embeds those parts of `src/app.py`:

* `Time`, `minutes`, `calc_fasting_hours`, `bool_to_int`, `score` embed the
  pure derivation functions (lines 36-48 and 97-103).  Python floats are
  modelled as exact rationals (every value produced here is a ratio of
  small integers, exactly representable in binary floating point except
  for the division by 60, whose rounding the claims never depend on).
* `Row`, `upsert`, `mkRow` embed the save-button block (lines 109-132):
  filter out the matching date, append the new row, re-sort by the date
  string, write back.
* `rowDay`, `windowRows`, `rate`, `stats` embed the statistics block
  (lines 159-177): convert the date column to day numbers, keep the rows
  on or after `max - (days - 1)`, and report each habit's mean times 100
  rounded to one decimal place, guarded by emptiness checks.
* `save_df`, `load_df`, `serializeRow`, `parseRow` embed the CSV layer
  (lines 20-34).  The cell-level serialization performed by pandas
  (`to_csv` / `read_csv`) is library code outside the repository; it is
  modelled from the spec's declared file format (section 6): times as
  `HH:MM`, booleans as `0`/`1` integers, `fasting_hours` as a decimal with
  two places, `note` as the stored string, one cell per column.
-/

/-- A time of day, as produced by the presentation layer's time widgets
(Python `datetime.time` restricted to hour and minute, the only fields the
program reads). -/
structure Time where
  hour : ℕ
  minute : ℕ
  deriving DecidableEq, Repr

/-- A well-formed time of day: what `datetime.time` guarantees by
construction. -/
def Time.Valid (t : Time) : Prop := t.hour < 24 ∧ t.minute < 60

instance (t : Time) : Decidable t.Valid := by unfold Time.Valid; infer_instance

/-- Embeds `minutes` (src/app.py line 36): minutes since midnight,
`t.hour * 60 + t.minute`. -/
def minutes (t : Time) : ℤ := t.hour * 60 + t.minute

/-- Embeds `calc_fasting_hours` (src/app.py lines 39-45): `diff = b - a`; if
`diff <= 0` then `diff += 24 * 60`; return `diff / 60.0`. -/
def calc_fasting_hours (last_meal first_meal : Time) : ℚ :=
  (((if minutes first_meal - minutes last_meal ≤ 0
      then minutes first_meal - minutes last_meal + 24 * 60
      else minutes first_meal - minutes last_meal) : ℤ) : ℚ) / 60

/-- Embeds `bool_to_int` (src/app.py lines 47-48). -/
def bool_to_int (x : Bool) : ℤ := if x then 1 else 0

/-- Embeds `score` (src/app.py lines 97-103): the sum of the five flags cast to
0/1. -/
def score (wake_on_time cold_shower yoga warm_water fasting_ok : Bool) : ℤ :=
  bool_to_int wake_on_time + bool_to_int cold_shower + bool_to_int yoga
    + bool_to_int warm_water + bool_to_int fasting_ok

/-- Fixed configuration (src/app.py line 9): target wake time 05:00. -/
def WAKE_TARGET : Time := ⟨5, 0⟩

/-- Fixed configuration (src/app.py line 10): fasting target 16 hours. -/
def FASTING_TARGET_HOURS : ℚ := 16

/-- One persisted row of the table, with the CSV schema of src/app.py
lines 24-30 and 112-125: `date` / time fields as the formatted strings,
boolean fields as 0/1 integers, `fasting_hours` as the (rounded)
number, `note` as free text. -/
structure Row where
  date : String
  wake_time : String
  wake_on_time : ℤ
  cold_shower : ℤ
  yoga : ℤ
  warm_water : ℤ
  last_meal : String
  first_meal : String
  fasting_hours : ℚ
  fasting_ok : ℤ
  score : ℤ
  note : String
  deriving DecidableEq, Repr

/-- The whitespace characters Python's `str.strip()` removes (restricted
to the ASCII range, the only characters these claims involve). -/
def isPySpace (c : Char) : Bool :=
  c = ' ' || c = '\t' || c = '\n' || c = '\r' || c = '\x0b' || c = '\x0c'

/-- Python `s.strip()`: remove leading and trailing whitespace. -/
def pyStrip (s : String) : String :=
  ⟨((s.data.dropWhile isPySpace).reverse.dropWhile isPySpace).reverse⟩

/-- The decimal digit characters used by `strftime` and `str` formatting. -/
def digitChar (d : ℕ) : Char :=
  match d with
  | 0 => '0' | 1 => '1' | 2 => '2' | 3 => '3' | 4 => '4'
  | 5 => '5' | 6 => '6' | 7 => '7' | 8 => '8' | 9 => '9'
  | _ => '?'

/-- Zero-padded two-digit rendering, as in `strftime` fields `%H`, `%M`. -/
def two_digits (n : ℕ) : List Char := [digitChar (n / 10 % 10), digitChar (n % 10)]

/-- Python `t.strftime("%H:%M")` (src/app.py lines 114, 119, 120). -/
def timeHHMM (t : Time) : String := ⟨two_digits t.hour ++ ':' :: two_digits t.minute⟩

/-- Round to the nearest integer, ties to even: the tie rule of Python's
builtin `round`. -/
def round_half_even (q : ℚ) : ℤ :=
  if q - Int.floor q < 1 / 2 then Int.floor q
  else if q - Int.floor q > 1 / 2 then Int.floor q + 1
  else if Int.floor q % 2 = 0 then Int.floor q else Int.floor q + 1

/-- Python `round(x, 2)` (src/app.py line 121), on exact rationals. -/
def pyRound2 (q : ℚ) : ℚ := (round_half_even (q * 100) : ℚ) / 100

/-- Python `round(x, 1)` (src/app.py lines 171-175), on exact rationals. -/
def pyRound1 (q : ℚ) : ℚ := (round_half_even (q * 10) : ℚ) / 10

/-- The `row` dict built in the save block (src/app.py lines 85-87, 97-103
and 110-125): format the times, derive `fasting_ok`, `wake_on_time` and
`score`, round the fasting hours to 2 places, strip the note. -/
def mkRow (date_str : String) (wake_time : Time) (cold_shower yoga warm_water : Bool)
    (last_meal first_meal : Time) (note : String) : Row :=
  let fh := calc_fasting_hours last_meal first_meal
  let fasting_ok : Bool := decide (FASTING_TARGET_HOURS ≤ fh)
  let wake_on_time : Bool := decide (minutes wake_time ≤ minutes WAKE_TARGET)
  { date := date_str
    wake_time := timeHHMM wake_time
    wake_on_time := bool_to_int wake_on_time
    cold_shower := bool_to_int cold_shower
    yoga := bool_to_int yoga
    warm_water := bool_to_int warm_water
    last_meal := timeHHMM last_meal
    first_meal := timeHHMM first_meal
    fasting_hours := pyRound2 fh
    fasting_ok := bool_to_int fasting_ok
    score := score wake_on_time cold_shower yoga warm_water fasting_ok
    note := pyStrip note }

/-- The order `sort_values("date")` sorts by: the date strings,
lexicographically (which pandas uses for an object column of strings). -/
def RowLe (a b : Row) : Prop := a.date ≤ b.date

instance : DecidableRel RowLe := fun a b => (inferInstance : Decidable (a.date ≤ b.date))

instance : IsTotal Row RowLe := ⟨fun a b => le_total a.date b.date⟩

instance : IsTrans Row RowLe := ⟨fun _ _ _ h1 h2 => le_trans h1 h2⟩

/-- The save-block update (src/app.py lines 128-130): drop the rows whose
date equals the new row's date, append the new row, re-sort by date. -/
def upsert (df : List Row) (r : Row) : List Row :=
  List.insertionSort RowLe (df.filter (fun x => x.date ≠ r.date) ++ [r])

/-- The C5 scenario row for 2024-01-01: all habits true, fasting 16.5 h. -/
def rowJan1 : Row :=
  { date := "2024-01-01", wake_time := "05:00", wake_on_time := 1, cold_shower := 1,
    yoga := 1, warm_water := 1, last_meal := "19:00", first_meal := "11:30",
    fasting_hours := 33 / 2, fasting_ok := 1, score := 5, note := "" }

/-- A second payload for the date 2024-01-01, used to exercise
last-writer-wins. -/
def rowJan1b : Row :=
  { date := "2024-01-01", wake_time := "06:00", wake_on_time := 0, cold_shower := 0,
    yoga := 1, warm_water := 0, last_meal := "20:00", first_meal := "10:00",
    fasting_hours := 14, fasting_ok := 0, score := 1, note := "later" }

/-- The C5 scenario row for 2024-01-02: all habits false, fasting 10 h. -/
def rowJan2 : Row :=
  { date := "2024-01-02", wake_time := "07:00", wake_on_time := 0, cold_shower := 0,
    yoga := 0, warm_water := 0, last_meal := "21:00", first_meal := "07:00",
    fasting_hours := 10, fasting_ok := 0, score := 0, note := "" }

/-- A concrete saved row built by `mkRow`, used by witnesses. -/
def noteRow : Row := mkRow "2024-01-01" ⟨5, 0⟩ true true true ⟨19, 0⟩ ⟨11, 0⟩ " hi "

/-- The numeric value of a decimal digit character. -/
def charVal (c : Char) : ℕ := c.toNat - 48

/-- Parse a `YYYY-MM-DD` string into (year, month, day), as
`pd.to_datetime` does for the date column (src/app.py line 163). -/
def parseYMD (s : String) : Option (ℤ × ℤ × ℤ) :=
  match s.data with
  | [y1, y2, y3, y4, '-', m1, m2, '-', d1, d2] =>
    if [y1, y2, y3, y4, m1, m2, d1, d2].all Char.isDigit then
      some ((charVal y1 * 1000 + charVal y2 * 100 + charVal y3 * 10 + charVal y4 : ℕ),
        (charVal m1 * 10 + charVal m2 : ℕ), (charVal d1 * 10 + charVal d2 : ℕ))
    else none
  | _ => none

/-- Days since 1970-01-01 of a proleptic Gregorian calendar date (the
standard civil-from-date conversion used by datetime libraries). -/
def daysFromCivil (y m d : ℤ) : ℤ :=
  let y2 := if m ≤ 2 then y - 1 else y
  let era := (if 0 ≤ y2 then y2 else y2 - 399) / 400
  let yoe := y2 - era * 400
  let mp := (m + 9) % 12
  let doy := (153 * mp + 2) / 5 + d - 1
  let doe := yoe * 365 + yoe / 4 - yoe / 100 + doy
  era * 146097 + doe - 719468

/-- The day number `pd.to_datetime` assigns to a row's date string
(src/app.py line 163); rows pandas could not parse are irrelevant to the
claims and get day 0. -/
def rowDay (x : Row) : ℤ :=
  match parseYMD x.date with
  | some (y, m, d) => daysFromCivil y m d
  | none => 0

/-- The recent-window filter (src/app.py lines 162-165): `cutoff` is the
maximum date minus `days - 1` days, and a row is kept when its date is on
or after the cutoff. -/
def windowRows (df : List Row) (days : ℕ) : List Row :=
  match (df.map rowDay).max? with
  | none => []
  | some asOf => df.filter (fun x => asOf - ((days : ℤ) - 1) ≤ rowDay x)

/-- One compliance rate (src/app.py lines 171-175):
`round(recent[col].mean() * 100, 1)`. -/
def rate (recent : List Row) (f : Row → ℤ) : ℚ :=
  pyRound1 (((recent.map f).sum : ℚ) / (recent.length : ℚ) * 100)

/-- The statistics block (src/app.py lines 142, 162-177): `none` models
the explicit no-data messages shown when the table or the filtered window
is empty; otherwise the five habit rates are reported. -/
def stats (df : List Row) (days : ℕ) : Option (ℚ × ℚ × ℚ × ℚ × ℚ) :=
  if df.isEmpty then none
  else
    let recent := windowRows df days
    if recent.isEmpty then none
    else
      some (rate recent Row.wake_on_time, rate recent Row.cold_shower,
        rate recent Row.yoga, rate recent Row.warm_water, rate recent Row.fasting_ok)

/-- Render a natural number in decimal, as Python `str` does. -/
def natChars (n : ℕ) : List Char :=
  if n = 0 then ['0'] else (Nat.digits 10 n).reverse.map digitChar

/-- Parse a nonempty all-digit character list as a natural number, as the
CSV reader's integer inference does. -/
def parseNatChars (cs : List Char) : Option ℕ :=
  if cs ≠ [] ∧ cs.all Char.isDigit then
    some (cs.foldl (fun a c => a * 10 + charVal c) 0)
  else none

/-- Render an integer in decimal. -/
def intChars (n : ℤ) : List Char :=
  if n < 0 then '-' :: natChars (-n).toNat else natChars n.toNat

/-- Parse an optionally-signed decimal integer. -/
def parseIntChars (cs : List Char) : Option ℤ :=
  if cs.head? = some '-' then (parseNatChars cs.tail).map (fun n => -(n : ℤ))
  else (parseNatChars cs).map (fun n => (n : ℤ))

/-- Modelled from the spec: the backing file serializes `fasting_hours` as
a decimal with two places (section 6); the rendering itself is performed
by pandas `to_csv`, which is outside the repository.  Defined for the
rationals the program writes: nonnegative multiples of 1/100. -/
def decChars (q : ℚ) : List Char :=
  let m := (q * 100).num.toNat
  natChars (m / 100) ++ '.' :: [digitChar (m / 10 % 10), digitChar (m % 10)]

/-- Modelled from the spec: the CSV reader's decimal-number inference
(`read_csv` is outside the repository): an integer part, a dot, and a
fractional part. -/
def parseDecChars (cs : List Char) : Option ℚ :=
  match cs.dropWhile (fun c => c ≠ '.') with
  | [] => (parseNatChars cs).map (fun n => (n : ℚ))
  | _ :: fp =>
    match parseNatChars (cs.takeWhile (fun c => c ≠ '.')), parseNatChars fp with
    | some i, some f => some ((i : ℚ) + (f : ℚ) / (10 : ℚ) ^ fp.length)
    | _, _ => none

/-- The backing CSV file: a header row and one record of cells per data
row (spec section 6; quoting keeps cell boundaries exact, so the file is
modelled at cell granularity). -/
structure CsvFile where
  header : List String
  records : List (List String)
  deriving DecidableEq, Repr

/-- The schema's column set (src/app.py lines 24-30). -/
def schemaCols : List String :=
  ["date", "wake_time", "wake_on_time", "cold_shower", "yoga", "warm_water",
   "last_meal", "first_meal", "fasting_hours", "fasting_ok", "score", "note"]

/-- A pandas DataFrame, restricted to what the program uses: a column
list and the parsed rows. -/
structure DataFrame where
  cols : List String
  rows : List Row
  deriving DecidableEq, Repr

/-- One row rendered to CSV cells in schema order (`to_csv`, modelled from
the spec's declared formats: strings pass through, integers and the
2-place decimal are rendered in decimal). -/
def serializeRow (r : Row) : List String :=
  [r.date, r.wake_time, ⟨intChars r.wake_on_time⟩, ⟨intChars r.cold_shower⟩,
   ⟨intChars r.yoga⟩, ⟨intChars r.warm_water⟩, r.last_meal, r.first_meal,
   ⟨decChars r.fasting_hours⟩, ⟨intChars r.fasting_ok⟩, ⟨intChars r.score⟩, r.note]

/-- One CSV record parsed back into a row (`read_csv`, modelled from the
spec's declared formats). -/
def parseRow (cells : List String) : Option Row :=
  match cells with
  | [d, wt, wot, csh, yg, ww, lm, fm, fh, fok, sc, nt] =>
    match parseIntChars wot.data, parseIntChars csh.data, parseIntChars yg.data,
      parseIntChars ww.data, parseDecChars fh.data, parseIntChars fok.data,
      parseIntChars sc.data with
    | some wotv, some cshv, some ygv, some wwv, some fhv, some fokv, some scv =>
      some { date := d, wake_time := wt, wake_on_time := wotv, cold_shower := cshv,
             yoga := ygv, warm_water := wwv, last_meal := lm, first_meal := fm,
             fasting_hours := fhv, fasting_ok := fokv, score := scv, note := nt }
    | _, _, _, _, _, _, _ => none
  | _ => none

/-- Embeds `save_df` (src/app.py lines 33-34): write the whole table. -/
def save_df (df : DataFrame) : CsvFile := ⟨df.cols, df.rows.map serializeRow⟩

/-- Embeds `load_df` (src/app.py lines 20-31): read the whole table when the
backing file exists (`none` models a missing file), else return an empty
table carrying the schema's columns. -/
def load_df (file : Option CsvFile) : DataFrame :=
  match file with
  | none => ⟨schemaCols, []⟩
  | some f => ⟨f.header, f.records.filterMap parseRow⟩

/-- The save-block update on the whole DataFrame (src/app.py
lines 128-131). -/
def upsertDF (df : DataFrame) (r : Row) : DataFrame := ⟨df.cols, upsert df.rows r⟩

/-- A row the save block can actually write: `fasting_hours` nonnegative
and already rounded to two decimal places (src/app.py line 121). -/
def Row.WF (r : Row) : Prop := 0 ≤ r.fasting_hours ∧ (r.fasting_hours * 100).den = 1

theorem minutes_nonneg (t : Time) : 0 ≤ minutes t := by
  unfold minutes; positivity

theorem minutes_lt_1440 {t : Time} (h : t.Valid) : minutes t < 1440 := by
  obtain ⟨h1, h2⟩ := h
  unfold minutes
  omega

/-- C1 (counterexample): at the valid input `last_meal = first_meal = 08:00`
the function returns exactly 24, which is not in the half-open interval
`[0, 24)`; so the claimed range `[0, 24)` is false. -/
theorem C1_counterexample :
    Time.Valid ⟨8, 0⟩ ∧ calc_fasting_hours ⟨8, 0⟩ ⟨8, 0⟩ = 24 ∧
      ¬ calc_fasting_hours ⟨8, 0⟩ ⟨8, 0⟩ < 24 := by
  refine ⟨by decide, ?_, ?_⟩ <;> norm_num [calc_fasting_hours, minutes]

/-- C1 (amended): for every pair of valid time-of-day values,
`calc_fasting_hours` returns a value in the half-open interval `(0, 24]`,
and returns exactly 24.0 when `last_meal = first_meal`. -/
theorem C1_fasting_range (lm fm : Time) (h1 : lm.Valid) (h2 : fm.Valid) :
    (0 < calc_fasting_hours lm fm ∧ calc_fasting_hours lm fm ≤ 24) ∧
      (lm = fm → calc_fasting_hours lm fm = 24) := by
  have ha0 := minutes_nonneg lm
  have hb0 := minutes_nonneg fm
  have ha1 := minutes_lt_1440 h1
  have hb1 := minutes_lt_1440 h2
  constructor
  · unfold calc_fasting_hours
    by_cases hd : minutes fm - minutes lm ≤ 0 <;> simp only [hd, if_true, if_false, reduceIte]
    · constructor
      · apply div_pos _ (by norm_num)
        exact_mod_cast (by omega : (0 : ℤ) < minutes fm - minutes lm + 24 * 60)
      · rw [div_le_iff₀ (by norm_num : (0 : ℚ) < 60)]
        exact_mod_cast (by omega : minutes fm - minutes lm + 24 * 60 ≤ 24 * 60)
    · constructor
      · apply div_pos _ (by norm_num)
        exact_mod_cast (by omega : (0 : ℤ) < minutes fm - minutes lm)
      · rw [div_le_iff₀ (by norm_num : (0 : ℚ) < 60)]
        exact_mod_cast (by omega : minutes fm - minutes lm ≤ 24 * 60)
  · intro h
    subst h
    norm_num [calc_fasting_hours]

/-- C1 (witness for the amended theorem) at `lm = fm = 08:00`. -/
theorem C1_fasting_range_witness :
    (0 < calc_fasting_hours ⟨8, 0⟩ ⟨8, 0⟩ ∧ calc_fasting_hours ⟨8, 0⟩ ⟨8, 0⟩ ≤ 24) ∧
      (Time.mk 8 0 = Time.mk 8 0 → calc_fasting_hours ⟨8, 0⟩ ⟨8, 0⟩ = 24) :=
  C1_fasting_range ⟨8, 0⟩ ⟨8, 0⟩ (by decide) (by decide)

/-- C2: `calc_fasting_hours` computes
`diff = minutes first_meal - minutes last_meal`, adds 1440 when
`diff ≤ 0`, and returns `diff / 60`; in particular it maps
`(19:00, 11:00)` to 16, `(11:00, 19:00)` to 8 and `(08:00, 08:00)` to 24. -/
theorem C2_fasting_algorithm :
    (∀ lm fm : Time, calc_fasting_hours lm fm =
      (((if minutes fm - minutes lm ≤ 0
          then minutes fm - minutes lm + 1440
          else minutes fm - minutes lm) : ℤ) : ℚ) / 60) ∧
    calc_fasting_hours ⟨19, 0⟩ ⟨11, 0⟩ = 16 ∧
    calc_fasting_hours ⟨11, 0⟩ ⟨19, 0⟩ = 8 ∧
    calc_fasting_hours ⟨8, 0⟩ ⟨8, 0⟩ = 24 := by
  refine ⟨fun lm fm => rfl, ?_, ?_, ?_⟩ <;> norm_num [calc_fasting_hours, minutes]

/-- C9: for every assignment of the five boolean flags the score equals the
count of true flags, hence lies in `0..5`; `score` is a pure function of
the five flags alone. -/
theorem C9_score_is_count :
    ∀ w c y ww f : Bool,
      score w c y ww f = ([w, c, y, ww, f].count true : ℤ) ∧
        0 ≤ score w c y ww f ∧ score w c y ww f ≤ 5 := by
  decide

theorem upsert_perm (df : List Row) (r : Row) :
    List.Perm (upsert df r) (df.filter (fun x => x.date ≠ r.date) ++ [r]) :=
  List.perm_insertionSort RowLe _

theorem upsert_countP_eq_one (df : List Row) (r : Row) :
    (upsert df r).countP (fun x => x.date = r.date) = 1 := by
  rw [List.Perm.countP_eq _ (upsert_perm df r), List.countP_append]
  have h0 : (df.filter (fun x => x.date ≠ r.date)).countP (fun x => x.date = r.date) = 0 := by
    rw [List.countP_eq_zero]
    intro a ha
    have h1 := (List.mem_filter.mp ha).2
    simp only [decide_not, Bool.not_eq_true', decide_eq_false_iff_not] at h1
    simpa using h1
  rw [h0]
  simp

theorem upsert_mem_cases (df : List Row) (r : Row) {x : Row} (hx : x ∈ upsert df r) :
    x ∈ df.filter (fun y => y.date ≠ r.date) ∨ x = r := by
  have h := (upsert_perm df r).mem_iff.mp hx
  rw [List.mem_append] at h
  rcases h with h | h
  · exact Or.inl h
  · simp only [List.mem_singleton] at h
    exact Or.inr h

theorem upsert_mem_date_eq (df : List Row) (r : Row) :
    ∀ x ∈ upsert df r, x.date = r.date → x = r := by
  intro x hx hdate
  rcases upsert_mem_cases df r hx with h | h
  · have h1 := (List.mem_filter.mp h).2
    simp only [decide_not, Bool.not_eq_true', decide_eq_false_iff_not] at h1
    exact absurd hdate h1
  · exact h

/-- C3: after `upsert r` the table holds exactly one row whose date equals
`r.date`, and that row is `r` itself (the row is replaced whole, with no
field-level merge); upserting a second payload for the same date leaves
exactly one row for that date, equal to the second payload. -/
theorem C3_upsert_last_writer_wins (df : List Row) (r : Row) :
    ((upsert df r).countP (fun x => x.date = r.date) = 1 ∧
      ∀ x ∈ upsert df r, x.date = r.date → x = r) ∧
    ∀ r₂ : Row, r₂.date = r.date →
      (upsert (upsert df r) r₂).countP (fun x => x.date = r.date) = 1 ∧
      ∀ x ∈ upsert (upsert df r) r₂, x.date = r.date → x = r₂ := by
  refine ⟨⟨upsert_countP_eq_one df r, upsert_mem_date_eq df r⟩, ?_⟩
  intro r₂ h
  rw [← h]
  exact ⟨upsert_countP_eq_one _ r₂, upsert_mem_date_eq _ r₂⟩

/-- C3 (witness): two different payloads for 2024-01-01 in sequence leave
exactly one row for that date. -/
theorem C3_upsert_last_writer_wins_witness :
    (upsert (upsert [] rowJan1) rowJan1b).countP (fun x => x.date = rowJan1.date) = 1 :=
  ((C3_upsert_last_writer_wins [] rowJan1).2 rowJan1b rfl).1

/-- C8: the table written by `upsert` is always sorted ascending by date
(in particular when the incoming table already was). -/
theorem C8_upsert_sorted (df : List Row) (r : Row) (h : List.Sorted RowLe df) :
    List.Sorted RowLe (upsert df r) :=
  List.sorted_insertionSort RowLe _

/-- C8 (witness) at the empty store and the 2024-01-01 row. -/
theorem C8_upsert_sorted_witness : List.Sorted RowLe (upsert [] rowJan1) :=
  C8_upsert_sorted [] rowJan1 List.sorted_nil

/-- C10: every row persisted for the saved date carries the note with
leading and trailing whitespace removed, and a whitespace-only note is
stored as the empty string. -/
theorem C10_note_stripped :
    (∀ (d : String) (wt : Time) (cs yg ww : Bool) (lm fm : Time) (note : String)
        (df : List Row), ∀ x ∈ upsert df (mkRow d wt cs yg ww lm fm note),
        x.date = d → x.note = pyStrip note) ∧
    ∀ s : String, (∀ c ∈ s.data, isPySpace c) → pyStrip s = "" := by
  constructor
  · intro d wt cs yg ww lm fm note df x hx hdate
    have hr : x = mkRow d wt cs yg ww lm fm note :=
      upsert_mem_date_eq df _ x hx hdate
    rw [hr]
    rfl
  · intro s hs
    have h1 : s.data.dropWhile isPySpace = [] := by
      rw [List.dropWhile_eq_nil_iff]
      exact hs
    unfold pyStrip
    rw [h1]
    rfl

/-- C10 (witness): a concrete saved row stores the stripped note, and a
whitespace-only note becomes the empty string. -/
theorem C10_note_stripped_witness :
    noteRow.note = pyStrip " hi " ∧ pyStrip "  " = "" := by
  constructor
  · exact C10_note_stripped.1 "2024-01-01" ⟨5, 0⟩ true true true ⟨19, 0⟩ ⟨11, 0⟩ " hi " []
      noteRow (List.mem_singleton.mpr rfl) rfl
  · exact C10_note_stripped.2 "  " (by decide)

theorem le_of_mem_max? {l : List ℤ} {m : ℤ} (hm : l.max? = some m) {a : ℤ} (ha : a ∈ l) :
    a ≤ m :=
  (List.max?_le_iff (fun _ _ _ => max_le_iff) hm).1 le_rfl a ha

theorem sum_eq_countP (l : List Row) (f : Row → ℤ)
    (hf : ∀ x ∈ l, f x = 0 ∨ f x = 1) :
    (l.map f).sum = (l.countP (fun x => f x = 1) : ℤ) := by
  induction l with
  | nil => simp
  | cons a l ih =>
    have ha := hf a (by simp)
    have ih2 := ih (fun x hx => hf x (by simp [hx]))
    rcases ha with h | h <;>
      simp [List.countP_cons, h, ih2] <;> omega

/-- C5: the windowed compliance filter keeps exactly the rows whose date
lies within `[asOf - (days - 1), asOf]`, where `asOf` is the maximum date
present; each habit's rate is `100 * (count of ones) / (window size)`
rounded to one decimal place; and over the rows 2024-01-01 (all habits
true) and 2024-01-02 (all habits false), a 2-day window yields 50.0 for
every habit. -/
theorem C5_windowed_compliance :
    (∀ (df : List Row) (days : ℕ) (asOf : ℤ), (df.map rowDay).max? = some asOf →
      ∀ x : Row, x ∈ windowRows df days ↔
        x ∈ df ∧ asOf - ((days : ℤ) - 1) ≤ rowDay x ∧ rowDay x ≤ asOf) ∧
    (∀ (recent : List Row) (f : Row → ℤ), recent ≠ [] →
      (∀ x ∈ recent, f x = 0 ∨ f x = 1) →
      rate recent f =
        pyRound1 (100 * ((recent.countP (fun x => f x = 1) : ℚ) / (recent.length : ℚ)))) ∧
    stats [rowJan1, rowJan2] 2 = some (50, 50, 50, 50, 50) := by
  refine ⟨?_, ?_, ?_⟩
  · intro df days asOf hmax x
    unfold windowRows
    rw [hmax]
    rw [List.mem_filter]
    constructor
    · rintro ⟨hx, hcond⟩
      refine ⟨hx, by simpa using hcond, ?_⟩
      exact le_of_mem_max? hmax (List.mem_map_of_mem rowDay hx)
    · rintro ⟨hx, hcond, _⟩
      exact ⟨hx, by simpa using hcond⟩
  · intro recent f hne hf
    unfold rate
    congr 1
    rw [sum_eq_countP recent f hf]
    push_cast
    ring
  · have h1 : rowDay rowJan1 = 19723 := by decide
    have h2 : rowDay rowJan2 = 19724 := by decide
    have hw : windowRows [rowJan1, rowJan2] 2 = [rowJan1, rowJan2] := by
      unfold windowRows
      simp only [List.map_cons, List.map_nil, h1, h2]
      simp [List.filter, h1, h2]
    simp only [stats, hw, List.isEmpty_cons, Bool.false_eq_true, if_false]
    norm_num [rate, pyRound1, round_half_even, rowJan1, rowJan2]

/-- C5 (witness): the filter characterisation and the rate formula applied
at the concrete two-row scenario. -/
theorem C5_windowed_compliance_witness :
    (rowJan1 ∈ windowRows [rowJan1, rowJan2] 2 ↔
      rowJan1 ∈ [rowJan1, rowJan2] ∧
        daysFromCivil 2024 1 2 - ((2 : ℤ) - 1) ≤ rowDay rowJan1 ∧
        rowDay rowJan1 ≤ daysFromCivil 2024 1 2) ∧
    rate [rowJan1, rowJan2] Row.yoga =
      pyRound1 (100 * ((([rowJan1, rowJan2].countP (fun x => x.yoga = 1)) : ℚ) /
        (([rowJan1, rowJan2] : List Row).length : ℚ))) := by
  constructor
  · exact C5_windowed_compliance.1 [rowJan1, rowJan2] 2 (daysFromCivil 2024 1 2)
      (by decide) rowJan1
  · exact C5_windowed_compliance.2.1 [rowJan1, rowJan2] Row.yoga (by decide)
      (by decide)

/-- C6: whenever the filtered window holds zero rows (in particular for an
empty store, for any window length), the statistics block reports the
explicit no-data result, and rates are only ever computed over a nonempty
window (so the mean's division by the window size never divides by
zero). -/
theorem C6_empty_window_no_data (df : List Row) (days : ℕ)
    (h1 : 3 ≤ days) (h2 : days ≤ 60) :
    (windowRows df days = [] → stats df days = none) ∧
    ∀ out, stats df days = some out → windowRows df days ≠ [] := by
  constructor
  · intro h
    unfold stats
    by_cases hdf : df.isEmpty <;> simp [hdf, h]
  · intro out hout hwin
    unfold stats at hout
    by_cases hdf : df.isEmpty <;> simp [hdf, hwin] at hout

/-- C6 (witness): the empty store with a 7-day window reports no data. -/
theorem C6_empty_window_no_data_witness : stats [] 7 = none :=
  (C6_empty_window_no_data [] 7 (by norm_num) (by norm_num)).1 rfl

theorem digitChar_isDigit : ∀ d < 10, (digitChar d).isDigit = true := by decide

theorem charVal_digitChar : ∀ d < 10, charVal (digitChar d) = d := by decide

theorem digitChar_ne_dash (d : ℕ) : digitChar d ≠ '-' := by
  unfold digitChar
  split <;> decide

theorem digitChar_ne_dot (d : ℕ) : digitChar d ≠ '.' := by
  unfold digitChar
  split <;> decide

theorem foldl_digits (ds : List ℕ) (a : ℕ) (hds : ∀ d ∈ ds, d < 10) :
    (ds.map digitChar).foldl (fun acc c => acc * 10 + charVal c) a =
      ds.foldl (fun acc d => acc * 10 + d) a := by
  induction ds generalizing a with
  | nil => rfl
  | cons d ds ih =>
    simp only [List.map_cons, List.foldl_cons]
    rw [charVal_digitChar d (hds d (by simp))]
    exact ih _ (fun x hx => hds x (by simp [hx]))

theorem foldr_eq_ofDigits (L : List ℕ) :
    L.foldr (fun d acc => acc * 10 + d) 0 = Nat.ofDigits 10 L := by
  induction L with
  | nil => simp [Nat.ofDigits]
  | cons d L ih =>
    simp only [List.foldr_cons, Nat.ofDigits_cons, ih]
    ring

theorem parseNat_natChars (n : ℕ) : parseNatChars (natChars n) = some n := by
  by_cases h : n = 0
  · subst h
    decide
  · unfold natChars parseNatChars
    rw [if_neg h]
    have hne : (Nat.digits 10 n).reverse.map digitChar ≠ [] := by
      simp [Nat.digits_ne_nil_iff_ne_zero, h]
    have hall : ((Nat.digits 10 n).reverse.map digitChar).all Char.isDigit = true := by
      rw [List.all_eq_true]
      intro c hc
      rw [List.mem_map] at hc
      obtain ⟨d, hd, rfl⟩ := hc
      exact digitChar_isDigit d (Nat.digits_lt_base (by norm_num) (List.mem_reverse.mp hd))
    rw [if_pos ⟨hne, hall⟩]
    congr 1
    rw [foldl_digits _ _ (fun d hd => Nat.digits_lt_base (by norm_num) (List.mem_reverse.mp hd))]
    rw [List.foldl_reverse]
    rw [foldr_eq_ofDigits]
    exact Nat.ofDigits_digits 10 n

theorem natChars_head_digit (n : ℕ) :
    ∃ d, d < 10 ∧ (natChars n).head? = some (digitChar d) := by
  unfold natChars
  by_cases h : n = 0
  · refine ⟨0, by norm_num, ?_⟩
    rw [if_pos h]
    rfl
  · rw [if_neg h]
    have hne : (Nat.digits 10 n).reverse ≠ [] := by
      simp [Nat.digits_ne_nil_iff_ne_zero, h]
    obtain ⟨d, ds, hds⟩ := List.exists_cons_of_ne_nil hne
    refine ⟨d, ?_, by rw [hds]; simp⟩
    have : d ∈ (Nat.digits 10 n).reverse := by rw [hds]; simp
    exact Nat.digits_lt_base (by norm_num) (List.mem_reverse.mp this)

theorem parseInt_intChars (n : ℤ) : parseIntChars (intChars n) = some n := by
  unfold intChars parseIntChars
  by_cases h : n < 0
  · rw [if_pos h]
    have hh : ('-' :: natChars (-n).toNat).head? = some '-' := rfl
    rw [if_pos hh]
    simp only [List.tail_cons]
    rw [parseNat_natChars]
    have ht : (((-n).toNat : ℤ)) = -n := Int.toNat_of_nonneg (by omega)
    simp [ht]
  · rw [if_neg h]
    obtain ⟨d, hd, hh⟩ := natChars_head_digit n.toNat
    have hcond : ¬ (natChars n.toNat).head? = some '-' := by
      rw [hh]
      simp only [Option.some.injEq]
      exact digitChar_ne_dash d
    rw [if_neg hcond]
    rw [parseNat_natChars]
    have ht : ((n.toNat : ℤ)) = n := Int.toNat_of_nonneg (by omega)
    simp [ht]

theorem takeWhile_to_dot (ip fp : List Char) (h : ∀ c ∈ ip, c ≠ '.') :
    (ip ++ '.' :: fp).takeWhile (fun c => c ≠ '.') = ip ∧
      (ip ++ '.' :: fp).dropWhile (fun c => c ≠ '.') = '.' :: fp := by
  induction ip with
  | nil => simp [List.takeWhile, List.dropWhile]
  | cons a ip ih =>
    have ha : a ≠ '.' := h a (by simp)
    obtain ⟨h1, h2⟩ := ih (fun c hc => h c (by simp [hc]))
    constructor
    · simpa [List.takeWhile_cons, ha] using h1
    · simpa [List.dropWhile_cons, ha] using h2

theorem parseNat_two_digits (a b : ℕ) (ha : a < 10) (hb : b < 10) :
    parseNatChars [digitChar a, digitChar b] = some (a * 10 + b) := by
  have h1 : ([digitChar a, digitChar b] : List Char) ≠ [] := by simp
  have h2 : ([digitChar a, digitChar b] : List Char).all Char.isDigit = true := by
    simp only [List.all_cons, List.all_nil, Bool.and_true, Bool.and_eq_true]
    exact ⟨digitChar_isDigit a ha, digitChar_isDigit b hb⟩
  unfold parseNatChars
  rw [if_pos (And.intro h1 h2)]
  simp only [List.foldl_cons, List.foldl_nil]
  rw [charVal_digitChar a ha, charVal_digitChar b hb]
  congr 1
  ring

theorem natChars_no_dot (n : ℕ) : ∀ c ∈ natChars n, c ≠ '.' := by
  intro c hc
  unfold natChars at hc
  by_cases h : n = 0
  · rw [if_pos h] at hc
    simp at hc
    rw [hc]
    decide
  · rw [if_neg h] at hc
    rw [List.mem_map] at hc
    obtain ⟨d, _, rfl⟩ := hc
    exact digitChar_ne_dot d

theorem parseDec_decChars (q : ℚ) (h0 : 0 ≤ q) (hden : (q * 100).den = 1) :
    parseDecChars (decChars q) = some q := by
  have hnum0 : 0 ≤ (q * 100).num := Rat.num_nonneg.mpr (by positivity)
  have hq100 : q * 100 = ((q * 100).num : ℚ) := by
    conv_lhs => rw [← Rat.num_div_den (q * 100)]
    rw [hden]
    norm_num
  have hm : (((q * 100).num.toNat : ℤ) : ℚ) = q * 100 := by
    rw [Int.toNat_of_nonneg hnum0]
    exact hq100.symm
  obtain ⟨ht, hd⟩ := takeWhile_to_dot (natChars ((q * 100).num.toNat / 100))
    [digitChar ((q * 100).num.toNat / 10 % 10), digitChar ((q * 100).num.toNat % 10)]
    (natChars_no_dot _)
  unfold decChars parseDecChars
  simp only [ht, hd, parseNat_natChars,
    parseNat_two_digits _ _ (by omega : (q * 100).num.toNat / 10 % 10 < 10)
      (by omega : (q * 100).num.toNat % 10 < 10),
    List.length_cons, List.length_nil]
  congr 1
  have key : (((q * 100).num.toNat : ℕ) : ℚ) = q * 100 := by exact_mod_cast hm
  have hsplit : ((q * 100).num.toNat / 100) * 100 +
      ((q * 100).num.toNat / 10 % 10 * 10 + (q * 100).num.toNat % 10) =
      (q * 100).num.toNat := by omega
  have hsplitQ : (((q * 100).num.toNat / 100 : ℕ) : ℚ) * 100 +
      (((q * 100).num.toNat / 10 % 10 * 10 + (q * 100).num.toNat % 10 : ℕ) : ℚ) =
      (((q * 100).num.toNat : ℕ) : ℚ) := by
    exact_mod_cast congrArg (Nat.cast (R := ℚ)) hsplit
  rw [key] at hsplitQ
  push_cast at hsplitQ ⊢
  norm_num
  linarith

theorem parseRow_serializeRow {r : Row} (h : r.WF) :
    parseRow (serializeRow r) = some r := by
  simp only [serializeRow, parseRow]
  rw [parseInt_intChars, parseInt_intChars, parseInt_intChars, parseInt_intChars,
    parseInt_intChars, parseInt_intChars, parseDec_decChars r.fasting_hours h.1 h.2]

theorem parseRow_serializeRow_date {y x : Row}
    (h : parseRow (serializeRow y) = some x) : x.date = y.date := by
  simp only [serializeRow, parseRow] at h
  split at h
  · injection h with h2
    rw [← h2]
  · simp at h

theorem loaded_rows_eq (df : DataFrame) (r : Row) :
    (load_df (some (save_df (upsertDF df r)))).rows =
      List.filterMap parseRow (List.map serializeRow (upsert df.rows r)) := rfl

/-- C7: loading with no backing file present returns an empty table whose
columns are exactly the schema's column set, and loading is total (a
missing file is a valid empty state, not an error). -/
theorem C7_load_missing_file :
    load_df none = ⟨schemaCols, []⟩ ∧
      schemaCols = ["date", "wake_time", "wake_on_time", "cold_shower", "yoga",
        "warm_water", "last_meal", "first_meal", "fasting_hours", "fasting_ok",
        "score", "note"] :=
  ⟨rfl, rfl⟩

/-- C4: after `upsert r` followed by `load`, the loaded table contains a
row equal to `r` for date `r.date` — every declared field, including the
2-decimal `fasting_hours`, survives the CSV round trip exactly. -/
theorem C4_round_trip (df : DataFrame) (r : Row) (h : r.WF) :
    r ∈ (load_df (some (save_df (upsertDF df r)))).rows ∧
      ∀ x ∈ (load_df (some (save_df (upsertDF df r)))).rows,
        x.date = r.date → x = r := by
  rw [loaded_rows_eq]
  constructor
  · rw [List.mem_filterMap]
    refine ⟨serializeRow r, List.mem_map_of_mem serializeRow ?_, parseRow_serializeRow h⟩
    have hmem : r ∈ upsert df.rows r ↔
        r ∈ (df.rows.filter fun x => x.date ≠ r.date) ++ [r] :=
      (upsert_perm df.rows r).mem_iff
    rw [hmem]
    simp
  · intro x hx hdate
    rw [List.mem_filterMap] at hx
    obtain ⟨cells, hcells, hparse⟩ := hx
    rw [List.mem_map] at hcells
    obtain ⟨y, hy, rfl⟩ := hcells
    have hyd : y.date = r.date := by
      rw [← parseRow_serializeRow_date hparse]
      exact hdate
    have hyr : y = r := upsert_mem_date_eq df.rows r y hy hyd
    subst hyr
    rw [parseRow_serializeRow h] at hparse
    exact (Option.some.inj hparse).symm

/-- C4 (witness): the 2024-01-01 row with fasting 16.50 h survives the
round trip through the empty store. -/
theorem C4_round_trip_witness :
    rowJan1 ∈ (load_df (some (save_df (upsertDF ⟨schemaCols, []⟩ rowJan1)))).rows := by
  refine (C4_round_trip ⟨schemaCols, []⟩ rowJan1 ⟨by norm_num [rowJan1], ?_⟩).1
  have : rowJan1.fasting_hours * 100 = (1650 : ℚ) := by norm_num [rowJan1]
  rw [this]
  rfl
